import Mathlib

/-!
Verification of the steady-state-standard actor pipeline.

The four actor behaviors (heartbeat, generator, worker, logger) are embedded
from their Rust sources in `src/actor/`.  The channel and waiting primitives
they run on (the `steady_state` core: bounded channels, `wait_vacant` /
`wait_avail` / `wait_periodic` composition, shutdown negotiation) are not part
of the `src/` tree; they are modelled from the specification, sections 4.1-4.3.
-/

namespace SteadyStateStandard

/-- Modelled from the spec: the bounded channel of section 4.1 (the channel
primitive itself is repository core code not present under `src/`).  A channel
has a fixed capacity, an ordered buffer of items (front of the list is the
oldest item, the next to be taken), and a closed flag. -/
structure Channel (α : Type) where
  capacity : Nat
  buffer : List α
  closed : Bool
deriving Repr, DecidableEq

/-- Modelled from the spec: `available_units()` — exact count of buffered items. -/
def Channel.availUnits {α : Type} (ch : Channel α) : Nat :=
  ch.buffer.length

/-- Modelled from the spec: `vacant_units()` — exact count of free slots. -/
def Channel.vacantUnits {α : Type} (ch : Channel α) : Nat :=
  ch.capacity - ch.buffer.length

/-- Modelled from the spec: `try_send(item) -> {Sent | Rejected}`; `Rejected`
when the fill count equals the capacity, and always after `mark_closed()`.
`some` is `Sent` (returning the updated channel), `none` is `Rejected`. -/
def Channel.trySend {α : Type} (ch : Channel α) (x : α) : Option (Channel α) :=
  if ch.closed || decide (ch.buffer.length = ch.capacity) then none
  else some { ch with buffer := ch.buffer ++ [x] }

/-- Modelled from the spec: `try_take() -> Option<item>` — returns nothing if
empty, else the oldest item and the channel without it. -/
def Channel.tryTake {α : Type} (ch : Channel α) : Option (α × Channel α) :=
  match ch.buffer with
  | [] => none
  | x :: rest => some (x, { ch with buffer := rest })

/-- Modelled from the spec: `mark_closed()` — idempotent, sets the closed flag,
buffered items remain takeable.  The Rust call returns a success boolean, used
by the actors' veto predicates; closing always succeeds. -/
def Channel.markClosed {α : Type} (ch : Channel α) : Bool × Channel α :=
  (true, { ch with closed := true })

/-- Modelled from the spec: `is_closed_and_empty()` — true iff closed and
`available_units() == 0`. -/
def Channel.isClosedAndEmpty {α : Type} (ch : Channel α) : Bool :=
  ch.closed && ch.buffer.isEmpty

/-- The message enum of `src/actor/worker.rs` (`FizzBuzzMessage`).  The Rust
discriminant values are a memory-layout detail with no behavioral role, so the
variants are modelled as plain constructors. -/
inductive FizzBuzzMessage where
  | FizzBuzz : FizzBuzzMessage
  | Fizz : FizzBuzzMessage
  | Buzz : FizzBuzzMessage
  | Value : Nat → FizzBuzzMessage
deriving Repr, DecidableEq

/-- `FizzBuzzMessage::new` from `src/actor/worker.rs` lines 19-26: match on
`(value % 3, value % 5)`.  `u64` values are embedded as `Nat`; remainders by
3 and 5 agree with the machine arithmetic since no overflow is involved. -/
def FizzBuzzMessage.new (value : Nat) : FizzBuzzMessage :=
  match value % 3, value % 5 with
  | 0, 0 => FizzBuzzMessage.FizzBuzz
  | 0, _ => FizzBuzzMessage.Fizz
  | _, 0 => FizzBuzzMessage.Buzz
  | _, _ => FizzBuzzMessage.Value value

/-- C1: for every value v, `FizzBuzzMessage::new` returns `FizzBuzz` iff
v % 15 = 0, `Fizz` iff v % 3 = 0 and v % 5 ≠ 0, `Buzz` iff v % 5 = 0 and
v % 3 ≠ 0, and `Value v` (carrying the original value) otherwise. -/
theorem fizzbuzz_classification (v : Nat) :
    (FizzBuzzMessage.new v = FizzBuzzMessage.FizzBuzz ↔ v % 15 = 0) ∧
    (FizzBuzzMessage.new v = FizzBuzzMessage.Fizz ↔ v % 3 = 0 ∧ v % 5 ≠ 0) ∧
    (FizzBuzzMessage.new v = FizzBuzzMessage.Buzz ↔ v % 5 = 0 ∧ v % 3 ≠ 0) ∧
    (FizzBuzzMessage.new v = FizzBuzzMessage.Value v ↔ v % 3 ≠ 0 ∧ v % 5 ≠ 0) := by
  have h15 : v % 15 = 0 ↔ v % 3 = 0 ∧ v % 5 = 0 := by omega
  by_cases h3 : v % 3 = 0 <;> by_cases h5 : v % 5 = 0
  · simp [FizzBuzzMessage.new, h3, h5, h15]
  · obtain ⟨b, hb⟩ : ∃ b, v % 5 = b + 1 := ⟨v % 5 - 1, by omega⟩
    simp [FizzBuzzMessage.new, h3, hb, h15]
  · obtain ⟨a, ha⟩ : ∃ a, v % 3 = a + 1 := ⟨v % 3 - 1, by omega⟩
    simp [FizzBuzzMessage.new, ha, h5, h15]
  · obtain ⟨a, ha⟩ : ∃ a, v % 3 = a + 1 := ⟨v % 3 - 1, by omega⟩
    obtain ⟨b, hb⟩ : ∃ b, v % 5 = b + 1 := ⟨v % 5 - 1, by omega⟩
    simp [FizzBuzzMessage.new, ha, hb, h15]

/-- Observable events of one heartbeat loop iteration body
(`src/actor/heartbeat.rs` lines 44-56): a successful send of the current
count, a panic of the `assert!` when the send is rejected, or the
`request_shutdown` call. -/
inductive HBEvent where
  | sent : Nat → HBEvent
  | panic : HBEvent
  | shutdownRequest : HBEvent
deriving Repr, DecidableEq

/-- The body of one heartbeat loop iteration, from `src/actor/heartbeat.rs`
lines 48-56: `assert!(try_send(count).is_sent)` (panic ends the iteration if
the send is rejected), then `count += 1`, then `request_shutdown` when
`beats == count`.  Returns the updated channel, the updated count, and the
ordered event trace of the iteration. -/
def heartbeatBody (tx : Channel Nat) (count beats : Nat) :
    Channel Nat × Nat × List HBEvent :=
  match tx.trySend count with
  | none => (tx, count, [HBEvent.panic])
  | some tx2 =>
      if beats = count + 1 then
        (tx2, count + 1, [HBEvent.sent count, HBEvent.shutdownRequest])
      else
        (tx2, count + 1, [HBEvent.sent count])

/-- One heartbeat loop iteration including its entry wait, from
`src/actor/heartbeat.rs` lines 44-56.  The gate is modelled from the spec
(sections 4.2-4.3): `await_for_all!(wait_periodic(rate), wait_vacant(tx, 1))`
resolves cleanly once the period has elapsed and a slot is vacant (time is
abstracted away: a period always eventually elapses, so the clean condition is
vacancy), or early and uncleanly when a shutdown has been requested; otherwise
the actor stays suspended (`none`): no iteration happens and nothing advances. -/
def heartbeatIteration (tx : Channel Nat) (count beats : Nat)
    (shutdownRequested : Bool) : Option (Channel Nat × Nat × List HBEvent) :=
  if 1 ≤ tx.vacantUnits then some (heartbeatBody tx count beats)
  else if shutdownRequested then some (heartbeatBody tx count beats)
  else none

/-- When a channel is open and has a vacant slot, `try_send` accepts the item
and appends it at the back of the buffer. -/
theorem trySend_of_vacant {α : Type} (ch : Channel α) (x : α)
    (hc : ch.closed = false) (hv : 1 ≤ ch.vacantUnits) :
    ch.trySend x = some { ch with buffer := ch.buffer ++ [x] } := by
  have hlt : ¬ (ch.buffer.length = ch.capacity) := by
    unfold Channel.vacantUnits at hv
    omega
  simp [Channel.trySend, hc, hlt]

/-- C2 counterexample: with the outgoing channel full (capacity 1 holding one
item) and no shutdown requested, the heartbeat does not drop the tick and move
on — it stays suspended in the combined wait (`none`), and once the channel has
a vacant slot the very same tick value is sent.  This refutes the claim that
the tick for the period is dropped rather than retried. -/
theorem heartbeat_drop_on_full_counterexample :
    heartbeatIteration ⟨1, [42], false⟩ 0 60 false = none ∧
    heartbeatIteration ⟨1, [], false⟩ 0 60 false =
      some (⟨1, [0], false⟩, 1, [HBEvent.sent 0]) := by
  exact ⟨rfl, rfl⟩

/-- C2 amended: if the outgoing channel is momentarily full at the scheduled
tick time (and no shutdown has been requested), the heartbeat does not proceed
to the next period: it remains suspended until a slot is vacant, and on any
open channel with a vacant slot the iteration sends the current count (the
tick is delayed, never dropped, and no count value is skipped). -/
theorem heartbeat_waits_for_vacancy (tx : Channel Nat) (count beats : Nat)
    (hfull : tx.vacantUnits = 0) :
    heartbeatIteration tx count beats false = none ∧
    (∀ tx2 : Channel Nat, tx2.closed = false → 1 ≤ tx2.vacantUnits →
      ∃ r : Channel Nat × Nat × List HBEvent,
        heartbeatIteration tx2 count beats false = some r ∧
        r.1.buffer = tx2.buffer ++ [count] ∧
        r.2.1 = count + 1 ∧
        HBEvent.sent count ∈ r.2.2) := by
  constructor
  · simp [heartbeatIteration, hfull]
  · intro tx2 hc hv
    refine ⟨heartbeatBody tx2 count beats, by simp [heartbeatIteration, hv], ?_⟩
    rw [heartbeatBody, trySend_of_vacant tx2 count hc hv]
    by_cases hb : beats = count + 1 <;> simp [hb]

/-- C2 amended, witness: at capacity 1 the full channel `[42]` suspends the
iteration, and the empty channel accepts tick 0. -/
theorem heartbeat_waits_for_vacancy_witness :
    heartbeatIteration ⟨1, [42], false⟩ 0 60 false = none ∧
    ∃ r : Channel Nat × Nat × List HBEvent,
      heartbeatIteration ⟨1, [], false⟩ 0 60 false = some r ∧
      r.1.buffer = [] ++ [0] ∧
      r.2.1 = 0 + 1 ∧
      HBEvent.sent 0 ∈ r.2.2 := by
  have h := heartbeat_waits_for_vacancy ⟨1, [42], false⟩ 0 60 (by decide)
  exact ⟨h.1, h.2 ⟨1, [], false⟩ rfl (by decide)⟩

/-- C4: within one heartbeat iteration body, the shutdown request is issued
iff the send of the current count was accepted and that emission makes the
count reach `beats`; and when it is issued, the event trace of the iteration
is exactly the send of the final tick followed by the shutdown request —
strictly after the send, in the same iteration. -/
theorem heartbeat_shutdown_after_final_send (tx : Channel Nat)
    (count beats : Nat) :
    (HBEvent.shutdownRequest ∈ (heartbeatBody tx count beats).2.2 ↔
      (tx.trySend count).isSome = true ∧ beats = count + 1) ∧
    (HBEvent.shutdownRequest ∈ (heartbeatBody tx count beats).2.2 →
      (heartbeatBody tx count beats).2.2 =
        [HBEvent.sent count, HBEvent.shutdownRequest]) := by
  rw [heartbeatBody]
  cases h : tx.trySend count with
  | none => simp
  | some tx2 =>
      by_cases hb : beats = count + 1 <;> simp [hb]

/-- C4 witness: with an open channel of capacity 2, count 0 and `beats = 1`,
the final send happens and the iteration trace is the send followed by the
shutdown request. -/
theorem heartbeat_shutdown_after_final_send_witness :
    HBEvent.shutdownRequest ∈ (heartbeatBody ⟨2, [], false⟩ 0 1).2.2 ∧
    (heartbeatBody ⟨2, [], false⟩ 0 1).2.2 =
      [HBEvent.sent 0, HBEvent.shutdownRequest] := by
  have h := heartbeat_shutdown_after_final_send ⟨2, [], false⟩ 0 1
  have hm : HBEvent.shutdownRequest ∈ (heartbeatBody ⟨2, [], false⟩ 0 1).2.2 :=
    h.1.mpr ⟨by decide, rfl⟩
  exact ⟨hm, h.2 hm⟩

/-- C9 failing input: when the outgoing channel is full and the combined wait
is interrupted early by a shutdown request, control reaches the `try_send`
with no vacant slot: the send is rejected and the `assert!` panics, so the
assertion is not valid in that reachable execution. -/
theorem heartbeat_assert_panics_on_unclean_wait :
    heartbeatIteration ⟨1, [42], false⟩ 5 60 true =
      some (⟨1, [42], false⟩, 5, [HBEvent.panic]) := by
  exact rfl

/-- The worker drain loop of `src/actor/worker.rs` lines 90-95:
`while items > 0 { try_take(generator).expect(..); try_send(logger, new(item)).expect(..); items -= 1 }`.
A failing `expect` aborts the actor; that panic is modelled as `none`. -/
def drainLoop : Nat → Channel Nat → Channel FizzBuzzMessage →
    Option (Channel Nat × Channel FizzBuzzMessage)
  | 0, gen, out => some (gen, out)
  | n + 1, gen, out =>
      match gen.tryTake with
      | none => none
      | some (item, gen2) =>
          match out.trySend (FizzBuzzMessage.new item) with
          | none => none
          | some out2 => drainLoop n gen2 out2

/-- When `items` is at most the generator's available units and at most the
output's vacant units, and the output is open, the drain loop takes exactly
`items` generator values in order, classifies each, appends the results to the
output buffer in that order, leaves the rest of the generator buffer, and no
`expect` branch is reached. -/
theorem drainLoop_spec (items : Nat) (gen : Channel Nat)
    (out : Channel FizzBuzzMessage) (hg : items ≤ gen.availUnits)
    (ho : items ≤ out.vacantUnits) (hc : out.closed = false) :
    drainLoop items gen out =
      some ({ gen with buffer := gen.buffer.drop items },
            { out with buffer :=
                out.buffer ++ (gen.buffer.take items).map FizzBuzzMessage.new }) := by
  induction items generalizing gen out with
  | zero => simp [drainLoop]
  | succ n ih =>
      obtain ⟨x, rest, hbuf⟩ : ∃ x rest, gen.buffer = x :: rest := by
        cases hb : gen.buffer with
        | nil =>
            have h1 : n + 1 ≤ gen.buffer.length := hg
            rw [hb] at h1
            simp at h1
        | cons a t => exact ⟨a, t, rfl⟩
      have htake : gen.tryTake = some (x, { gen with buffer := rest }) := by
        simp [Channel.tryTake, hbuf]
      have hv : 1 ≤ out.vacantUnits := le_trans (by omega) ho
      have hsend := trySend_of_vacant out (FizzBuzzMessage.new x) hc hv
      have hg2 : n ≤ rest.length := by
        have h1 : n + 1 ≤ gen.buffer.length := hg
        rw [hbuf] at h1
        simp at h1
        omega
      have ho2 : n ≤ (Channel.mk out.capacity
          (out.buffer ++ [FizzBuzzMessage.new x]) out.closed).vacantUnits := by
        have h1 : n + 1 ≤ out.capacity - out.buffer.length := ho
        simp [Channel.vacantUnits]
        omega
      simp only [drainLoop, htake, hsend]
      rw [ih { gen with buffer := rest }
            { out with buffer := out.buffer ++ [FizzBuzzMessage.new x] } hg2 ho2 hc]
      simp [hbuf]

/-- One worker loop iteration after the entry wait, from `src/actor/worker.rs`
lines 87-96: `if try_take(heartbeat).is_some() || !clean` then set
`items = avail_units(generator).min(vacant_units(logger))` and run the drain
loop; otherwise do nothing.  `clean` is the boolean returned by the
`await_for_all!` on lines 81-84 (false when that wait was unblocked early by a
shutdown request, as modelled from the spec, section 4.3).  A drain-loop panic
is `none`. -/
def workerIteration (hb gen : Channel Nat) (out : Channel FizzBuzzMessage)
    (clean : Bool) : Option (Channel Nat × Channel Nat × Channel FizzBuzzMessage) :=
  match hb.tryTake with
  | some (_, hb2) =>
      match drainLoop (min gen.availUnits out.vacantUnits) gen out with
      | none => none
      | some (gen2, out2) => some (hb2, gen2, out2)
  | none =>
      if clean then some (hb, gen, out)
      else
        match drainLoop (min gen.availUnits out.vacantUnits) gen out with
        | none => none
        | some (gen2, out2) => some (hb, gen2, out2)

/-- The worker's loop-continuation veto predicate, from `src/actor/worker.rs`
lines 60-64: `heartbeat_rx.is_closed_and_empty() && generator_rx.is_closed_and_empty()
&& logger_tx.mark_closed()`, with Rust's short-circuit `&&`: `mark_closed` is
evaluated only when both input checks are true.  Returns the predicate value
and the (possibly closed) output channel. -/
def workerVeto (hb gen : Channel Nat) (out : Channel FizzBuzzMessage) :
    Bool × Channel FizzBuzzMessage :=
  if hb.isClosedAndEmpty && gen.isClosedAndEmpty then out.markClosed
  else (false, out)

/-- C3: in every worker iteration that processes work (a heartbeat tick was
taken, or the wait was unclean because a shutdown is in progress), with the
output channel not yet closed, exactly
`n = min(available generator items, vacant output slots)` items are taken from
the generator, each is classified and appended to the output in the order
taken, and the remaining generator items are left buffered — nothing is
skipped or reordered. -/
theorem worker_batch_drains_min (hb gen : Channel Nat)
    (out : Channel FizzBuzzMessage) (clean : Bool)
    (hwork : hb.buffer ≠ [] ∨ clean = false) (hopen : out.closed = false) :
    ∃ hb2 : Channel Nat,
      workerIteration hb gen out clean =
        some (hb2,
              { gen with buffer :=
                  gen.buffer.drop (min gen.availUnits out.vacantUnits) },
              { out with buffer := out.buffer ++
                  (gen.buffer.take
                    (min gen.availUnits out.vacantUnits)).map FizzBuzzMessage.new }) := by
  have hdrain := drainLoop_spec (min gen.availUnits out.vacantUnits) gen out
    (Nat.min_le_left _ _) (Nat.min_le_right _ _) hopen
  cases hbuf : hb.buffer with
  | cons a t =>
      refine ⟨{ hb with buffer := t }, ?_⟩
      have htake : hb.tryTake = some (a, { hb with buffer := t }) := by
        simp [Channel.tryTake, hbuf]
      simp only [workerIteration, htake, hdrain]
  | nil =>
      have hclean : clean = false := by
        rcases hwork with h | h
        · exact absurd hbuf h
        · exact h
      have htake : hb.tryTake = none := by
        simp [Channel.tryTake, hbuf]
      refine ⟨hb, ?_⟩
      simp only [workerIteration, htake, hclean, hdrain]
      simp

/-- C3 witness: a pending tick, generator buffer `[0,1,2,3,4,5]` and an output
with 4 vacant slots: exactly 4 items are drained and classified in order,
`[4, 5]` remain buffered. -/
theorem worker_batch_drains_min_witness :
    ∃ hb2 : Channel Nat,
      workerIteration ⟨2, [9], false⟩ ⟨8, [0, 1, 2, 3, 4, 5], false⟩
          ⟨4, [], false⟩ true =
        some (hb2, ⟨8, [4, 5], false⟩,
              ⟨4, [FizzBuzzMessage.FizzBuzz, FizzBuzzMessage.Value 1,
                   FizzBuzzMessage.Value 2, FizzBuzzMessage.Fizz], false⟩) := by
  obtain ⟨hb2, hh⟩ := worker_batch_drains_min ⟨2, [9], false⟩
    ⟨8, [0, 1, 2, 3, 4, 5], false⟩ ⟨4, [], false⟩ true (Or.inl (by decide)) rfl
  refine ⟨hb2, ?_⟩
  rw [hh]
  rfl

/-- C5 counterexample: evaluating the worker veto predicate while the
heartbeat input is not closed-and-empty (here it still holds an item) does
not call `mark_closed` on the output: Rust's short-circuit `&&` skips the
third conjunct, so the output channel stays open — refuting the claim that
`mark_closed` runs on every evaluation regardless of the input channels. -/
theorem worker_veto_counterexample :
    ((workerVeto ⟨1, [7], false⟩ ⟨1, [], true⟩ ⟨1, [], false⟩).2).closed
      = false := by
  exact rfl

/-- C5 amended: evaluating the worker veto predicate calls `mark_closed` on
the output channel exactly when both input channels are closed-and-empty
(`&&` short-circuits, `mark_closed` is the last conjunct); the predicate
returns true in exactly that case, and otherwise the output's closed flag is
left as it was. -/
theorem worker_veto_marks_closed_iff_inputs_drained (hb gen : Channel Nat)
    (out : Channel FizzBuzzMessage) :
    (workerVeto hb gen out).1
        = (hb.isClosedAndEmpty && gen.isClosedAndEmpty) ∧
    (workerVeto hb gen out).2.closed
        = (hb.isClosedAndEmpty && gen.isClosedAndEmpty || out.closed) := by
  by_cases h : (hb.isClosedAndEmpty && gen.isClosedAndEmpty) = true <;>
    simp [workerVeto, Channel.markClosed, h]

/-- C7: a worker iteration in which no heartbeat tick is available (empty
heartbeat buffer) and the wait completed cleanly (no shutdown in progress)
does no work: all three channels are returned unchanged — no generator item
is taken and nothing is sent to the output. -/
theorem worker_idle_without_tick (hb gen : Channel Nat)
    (out : Channel FizzBuzzMessage) (hempty : hb.buffer = []) :
    workerIteration hb gen out true = some (hb, gen, out) := by
  have htake : hb.tryTake = none := by
    simp [Channel.tryTake, hempty]
  simp [workerIteration, htake]

/-- C7 witness: empty heartbeat, clean wait: the iteration leaves the loaded
generator channel and the output untouched. -/
theorem worker_idle_without_tick_witness :
    workerIteration ⟨2, [], false⟩ ⟨8, [0, 1, 2], false⟩ ⟨4, [], false⟩ true =
      some (⟨2, [], false⟩, ⟨8, [0, 1, 2], false⟩, ⟨4, [], false⟩) := by
  exact worker_idle_without_tick ⟨2, [], false⟩ ⟨8, [0, 1, 2], false⟩
    ⟨4, [], false⟩ rfl

/-- C10: with the output channel open, running the drain loop with
`items = min(available generator units, vacant output units)` never reaches
either `expect("internal error")` branch: every `try_take` returns `Some` and
every `try_send` is accepted, and the loop returns the fully drained batch
(`some`, never the panic value `none`). -/
theorem worker_drain_expects_unreachable (gen : Channel Nat)
    (out : Channel FizzBuzzMessage) (hopen : out.closed = false) :
    drainLoop (min gen.availUnits out.vacantUnits) gen out =
      some ({ gen with buffer :=
                gen.buffer.drop (min gen.availUnits out.vacantUnits) },
            { out with buffer := out.buffer ++
                (gen.buffer.take
                  (min gen.availUnits out.vacantUnits)).map FizzBuzzMessage.new }) := by
  exact drainLoop_spec _ gen out (Nat.min_le_left _ _) (Nat.min_le_right _ _)
    hopen

/-- C10 witness: generator `[0, 1, 2]`, output capacity 2 with one slot used:
`items = min 3 1 = 1`, the drain returns `some` (no `expect` fires). -/
theorem worker_drain_expects_unreachable_witness :
    drainLoop (min (Channel.mk 8 [0, 1, 2] false).availUnits
        (Channel.mk 2 [FizzBuzzMessage.Fizz] false).vacantUnits)
        ⟨8, [0, 1, 2], false⟩ ⟨2, [FizzBuzzMessage.Fizz], false⟩ =
      some (⟨8, [1, 2], false⟩,
            ⟨2, [FizzBuzzMessage.Fizz, FizzBuzzMessage.FizzBuzz], false⟩) := by
  have h := worker_drain_expects_unreachable ⟨8, [0, 1, 2], false⟩
    ⟨2, [FizzBuzzMessage.Fizz], false⟩ rfl
  rw [h]
  rfl

/-- Outcome of one `send_async(..., SendSaturation::AwaitForRoom)` call in
`src/actor/generator.rs` line 38.  Modelled from the spec (sections 4.5 and 7):
the call suspends until the channel has room and then succeeds, or returns
`Blocked` when a shutdown interrupts the wait; which of the two happens in a
given iteration depends on the concurrent consumer, so a run is parametrized
by the list of outcomes. -/
inductive SendOutcome where
  | success : SendOutcome
  | blocked : SendOutcome
deriving Repr, DecidableEq

/-- Number of successful sends in an outcome sequence. -/
def numSuccess : List SendOutcome → Nat
  | [] => 0
  | SendOutcome.success :: rest => numSuccess rest + 1
  | SendOutcome.blocked :: rest => numSuccess rest

/-- The generator loop of `src/actor/generator.rs` lines 34-42, run over a
sequence of send outcomes: on `Success` the channel accepted the current
`state.value` and then `state.value += 1`; on `Blocked` nothing is accepted
and the value is unchanged.  Returns the final counter and the ordered list
of values accepted by the channel. -/
def generatorRun (value : Nat) (accepted : List Nat) :
    List SendOutcome → Nat × List Nat
  | [] => (value, accepted)
  | SendOutcome.success :: rest =>
      generatorRun (value + 1) (accepted ++ [value]) rest
  | SendOutcome.blocked :: rest => generatorRun value accepted rest

/-- General form of the generator invariant: the counter advances by exactly
the number of successful sends, and the values accepted are the consecutive
range starting at the initial counter. -/
theorem generatorRun_spec (env : List SendOutcome) (value : Nat)
    (accepted : List Nat) :
    generatorRun value accepted env =
      (value + numSuccess env,
       accepted ++ List.range' value (numSuccess env)) := by
  induction env generalizing value accepted with
  | nil => simp [generatorRun, numSuccess]
  | cons o rest ih =>
      cases o with
      | success =>
          rw [generatorRun, ih]
          simp [numSuccess, List.range'_succ]
          omega
      | blocked =>
          rw [generatorRun, ih]
          simp [numSuccess]

/-- C6: starting from counter 0, over any sequence of send outcomes the
counter is incremented exactly once per successful send (unchanged on
`Blocked`), so the final counter equals the number of successes and the
sequence of values accepted by the channel is `0, 1, 2, ...` consecutively —
no gaps and no duplicates. -/
theorem generator_sequence_consecutive (env : List SendOutcome) :
    (generatorRun 0 [] env).1 = numSuccess env ∧
    (generatorRun 0 [] env).2 = List.range (numSuccess env) := by
  rw [generatorRun_spec]
  simp [List.range_eq_range']

/-- When `try_take` yields an item, that item was the head of the buffer and
the returned channel holds the tail. -/
theorem tryTake_some_buffer {α : Type} {ch : Channel α} {p : α × Channel α}
    (h : ch.tryTake = some p) : ch.buffer = p.1 :: p.2.buffer := by
  unfold Channel.tryTake at h
  cases hb : ch.buffer with
  | nil =>
      rw [hb] at h
      exact absurd h (by simp)
  | cons x rest =>
      rw [hb] at h
      simp only [Option.some.injEq] at h
      subst h
      simp [hb]

/-- The logger inner drain loop of `src/actor/logger.rs` lines 33-38:
`while let Some(msg) = actor.try_take(&mut rx) { info!("Msg {:?}", msg) }`.
`log` is the append-only record of messages logged so far; each taken message
is appended unchanged. -/
def loggerDrain (rx : Channel FizzBuzzMessage) (log : List FizzBuzzMessage) :
    Channel FizzBuzzMessage × List FizzBuzzMessage :=
  match h : rx.tryTake with
  | none => (rx, log)
  | some p => loggerDrain p.2 (log ++ [p.1])
termination_by rx.buffer.length
decreasing_by
  rw [tryTake_some_buffer h]
  simp

/-- The drain loop takes every buffered item, in order, appends each unchanged
to the log, and leaves the channel empty (the closed flag and capacity are
untouched). -/
theorem loggerDrain_spec (rx : Channel FizzBuzzMessage)
    (log : List FizzBuzzMessage) :
    loggerDrain rx log = ({ rx with buffer := [] }, log ++ rx.buffer) := by
  obtain ⟨cap, buf, cl⟩ := rx
  induction buf generalizing log with
  | nil =>
      rw [loggerDrain]
      simp [Channel.tryTake]
  | cons x rest ih =>
      rw [loggerDrain]
      simp only [Channel.tryTake]
      rw [ih (log ++ [x])]
      simp

/-- One logger outer-loop iteration, from `src/actor/logger.rs` lines 27-38.
The entry gate `await_for_all!(wait_avail(rx, 1))` is modelled from the spec
(section 4.3): it resolves once at least one item is available, or early when
a shutdown has been requested; otherwise the actor stays suspended (`none`).
After the wait, the inner loop drains the channel. -/
def loggerIteration (rx : Channel FizzBuzzMessage) (log : List FizzBuzzMessage)
    (shutdownRequested : Bool) :
    Option (Channel FizzBuzzMessage × List FizzBuzzMessage) :=
  if 1 ≤ rx.availUnits then some (loggerDrain rx log)
  else if shutdownRequested then some (loggerDrain rx log)
  else none

/-- The logger's loop-continuation veto predicate, `src/actor/logger.rs` line
25: `rx.is_closed_and_empty()`. -/
def loggerVeto (rx : Channel FizzBuzzMessage) : Bool :=
  rx.isClosedAndEmpty

/-- C8: in every logger outer-loop wake-up (no shutdown in progress), the
actor stays suspended while no item is available; once at least one item is
available it takes every currently buffered item — not just one — appending
each unchanged, in order, to the log before suspending again; and the loop
continues until the input channel is closed and empty (the veto predicate
holds exactly then). -/
theorem logger_drains_all_available (rx : Channel FizzBuzzMessage)
    (log : List FizzBuzzMessage) :
    (rx.buffer = [] → loggerIteration rx log false = none) ∧
    (rx.buffer ≠ [] →
      loggerIteration rx log false =
        some ({ rx with buffer := [] }, log ++ rx.buffer)) ∧
    (loggerVeto rx = true ↔ rx.closed = true ∧ rx.buffer = []) := by
  refine ⟨?_, ?_, ?_⟩
  · intro hempty
    simp [loggerIteration, Channel.availUnits, hempty]
  · intro hne
    have hav : 1 ≤ rx.availUnits := by
      unfold Channel.availUnits
      cases hb : rx.buffer with
      | nil => exact absurd hb hne
      | cons a t => simp
    simp [loggerIteration, hav, loggerDrain_spec]
  · simp [loggerVeto, Channel.isClosedAndEmpty, List.isEmpty_iff]

/-- C8 witness: an empty channel keeps the logger suspended; a channel holding
two messages is fully drained in order onto the log. -/
theorem logger_drains_all_available_witness :
    loggerIteration ⟨4, [], false⟩ [] false = none ∧
    loggerIteration ⟨4, [FizzBuzzMessage.Fizz, FizzBuzzMessage.Buzz], false⟩
        [FizzBuzzMessage.FizzBuzz] false =
      some (⟨4, [], false⟩,
            [FizzBuzzMessage.FizzBuzz, FizzBuzzMessage.Fizz,
             FizzBuzzMessage.Buzz]) := by
  have h1 := logger_drains_all_available ⟨4, [], false⟩ []
  have h2 := logger_drains_all_available
    ⟨4, [FizzBuzzMessage.Fizz, FizzBuzzMessage.Buzz], false⟩
    [FizzBuzzMessage.FizzBuzz]
  refine ⟨h1.1 rfl, ?_⟩
  rw [h2.2.1 (by decide)]
  rfl

end SteadyStateStandard
